import Mathlib

/- Verification development for the discord-office-panel repository: a shallow
   embedding of the office/membership storage logic (src/server/storage.ts,
   both the MemStorage and the DatabaseStorage backend), the member-removal and
   office-creation HTTP route logic (src/server/routes.ts), and the Discord
   gateway request constructors (the discord module: createVoiceChannel,
   updateChannelPermissions).

   Conventions of the embedding:
   - TypeScript Date values are modelled as a Nat clock value passed to each
     mutating operation as the parameter now.
   - The in-memory backend's Map objects are modelled as association lists with
     first-match lookup, in-place replacement on set and single-entry removal on
     delete, which is exactly JavaScript Map behaviour on the duplicate-free key
     lists a Map guarantees.  The member-map key, in the source the string
     officeId + ":" + userId, is modelled as the pair (officeId, userId): the
     numeric prefix before the first colon determines the pair uniquely.
   - Gateway (Discord REST) calls are external effects.  Channel creation is an
     oracle that can fail (Option String as the created channel id), and every
     outgoing request is recorded in a GatewayEvent trace.  Permission-update
     and channel-delete failures are swallowed by the source (try/catch with
     continue), so their success or failure never influences local state and
     only the issued request is recorded.
   - The offices table in src/shared/schema.ts does not declare a
     voiceChannelId column, but both storage backends read and write
     office.voiceChannelId; it is modelled as a nullable column initialized to
     null on insert, following the storage code. -/

set_option maxRecDepth 2000

/-! Data model (src/shared/schema.ts) -/

structure User where
  id : String
  username : String
  discriminator : String
  avatar : Option String
  isAdmin : Bool
  accessToken : Option String
  refreshToken : Option String
  tokenExpiry : Option Nat
deriving DecidableEq

structure InsertUser where
  id : String
  username : String
  discriminator : String
  avatar : Option String
  isAdmin : Bool
deriving DecidableEq

structure Office where
  id : Nat
  name : String
  description : Option String
  isPrivate : Bool
  ownerId : String
  status : String
  createdAt : Nat
  voiceChannelId : Option String
deriving DecidableEq

structure InsertOffice where
  name : String
  description : Option String
  isPrivate : Bool
  ownerId : String
deriving DecidableEq

structure OfficeMember where
  id : Nat
  officeId : Nat
  userId : String
  isOwner : Bool
  joinedAt : Nat
deriving DecidableEq

structure InsertOfficeMember where
  officeId : Nat
  userId : String
  isOwner : Bool
deriving DecidableEq

/- Enriched records: the storage code spreads the base row and attaches the
   resolved user (respectively owner, members, memberCount). -/

structure OfficeMemberView where
  member : OfficeMember
  user : User
deriving DecidableEq

structure OfficeView where
  office : Office
  owner : User
  members : List OfficeMemberView
  memberCount : Nat
deriving DecidableEq

/- The synthetic Unknown placeholder substituted for a dangling user
   reference at enrichment time. -/
def unknownUser (id : String) : User :=
  { id := id, username := "Unknown", discriminator := "0000", avatar := none,
    isAdmin := false, accessToken := none, refreshToken := none, tokenExpiry := none }

/-! Discord gateway request constructors (the discord module). -/

structure PermissionOverwrite where
  id : String
  overwriteType : Nat
  allow : String
  deny : String
deriving DecidableEq

structure ChannelCreatePayload where
  name : String
  channelType : Nat
  permission_overwrites : List PermissionOverwrite
  parent_id : Option String
deriving DecidableEq

/- createVoiceChannel: the POST guilds/{GUILD_ID}/channels payload.  The
   @everyone role (its id equals the guild id) is denied CONNECT (1 <<< 20) and
   SPEAK (1 <<< 21), together 3145728, at channel-creation time. -/
def createVoiceChannelPayload (guildId : String) (name : String)
    (categoryId : Option String) : ChannelCreatePayload :=
  { name := name
    channelType := 2
    permission_overwrites :=
      [{ id := guildId, overwriteType := 0, allow := "0", deny := "3145728" }]
    parent_id := categoryId }

structure PermissionUpdate where
  channelId : String
  userId : String
  allow : Nat
  deny : Nat
  overwriteType : Nat
deriving DecidableEq

/- updateChannelPermissions: the PUT channels/{id}/permissions/{userId} body.
   The source computes finalAllow = allow || defaultAllow where
   defaultAllow = 3145728; in JavaScript the number 0 is falsy, so an explicit
   allow = 0 is replaced by the default.  The allow and deny numbers are
   serialized as decimal strings in the request body. -/
def updateChannelPermissionsReq (channelId : String) (userId : String)
    (allow : Nat) (deny : Nat) : PermissionUpdate :=
  { channelId := channelId
    userId := userId
    allow := if allow = 0 then 3145728 else allow
    deny := deny
    overwriteType := 1 }

inductive GatewayEvent where
  | createChannel (payload : ChannelCreatePayload) (result : Option String)
  | deleteChannel (channelId : String)
  | setPermission (req : PermissionUpdate)
deriving DecidableEq

/- The external gateway oracle: only channel creation can influence local
   state (its returned id is stored); none means the call threw. -/
structure Gateway where
  createChannel : ChannelCreatePayload → Option String

/- Environment configuration read by the source (GUILD_ID, VC_CATEGORY_ID). -/
structure Config where
  guildId : String
  vcCategoryId : Option String

/-! Association-list model of JavaScript Map (first-match lookup, in-place
    replacement on set, single-entry removal on delete). -/

def mapGet {κ α : Type} [DecidableEq κ] (k : κ) : List (κ × α) → Option α
  | [] => none
  | e :: t => if e.1 = k then some e.2 else mapGet k t

def mapSet {κ α : Type} [DecidableEq κ] (k : κ) (v : α) : List (κ × α) → List (κ × α)
  | [] => [(k, v)]
  | e :: t => if e.1 = k then (k, v) :: t else e :: mapSet k v t

def mapDelete {κ α : Type} [DecidableEq κ] (k : κ) : List (κ × α) → List (κ × α)
  | [] => []
  | e :: t => if e.1 = k then t else e :: mapDelete k t

def mapHas {κ α : Type} [DecidableEq κ] (k : κ) : List (κ × α) → Bool
  | [] => false
  | e :: t => if e.1 = k then true else mapHas k t

/- Pairwise-distinct keys: what a JavaScript Map guarantees for its entry
   list. -/
abbrev keysNodup {κ α : Type} (l : List (κ × α)) : Prop :=
  l.Pairwise (fun a b => a.1 ≠ b.1)

/-! The in-memory backend (class MemStorage). -/

structure MemStorage where
  users : List (String × User)
  offices : List (Nat × Office)
  officeMembers : List ((Nat × String) × OfficeMember)
  currentOfficeId : Nat
deriving DecidableEq

def MemStorage.init : MemStorage :=
  { users := [], offices := [], officeMembers := [], currentOfficeId := 1 }

def MemStorage.createUser (s : MemStorage) (u : InsertUser) : MemStorage × User :=
  let newUser : User :=
    { id := u.id, username := u.username, discriminator := u.discriminator,
      avatar := u.avatar, isAdmin := u.isAdmin,
      accessToken := none, refreshToken := none, tokenExpiry := none }
  ({ s with users := mapSet newUser.id newUser s.users }, newUser)

/- getOfficeMembers: iterates the member map and keeps only rows whose
   officeId matches and whose userId resolves to an existing User record
   (the source's if-user guard). -/
def MemStorage.getOfficeMembers (s : MemStorage) (officeId : Nat) :
    List OfficeMemberView :=
  s.officeMembers.filterMap (fun e =>
    if e.2.officeId = officeId then
      match mapGet e.2.userId s.users with
      | some u => some { member := e.2, user := u }
      | none => none
    else none)

def MemStorage.isOfficeMember (s : MemStorage) (officeId : Nat) (userId : String) :
    Bool :=
  mapHas (officeId, userId) s.officeMembers

/- The enrichment used by getAllOffices: owner resolved (Unknown placeholder
   on a dangling reference), members and count from getOfficeMembers at the
   office record's own id. -/
def MemStorage.enrichOffice (s : MemStorage) (o : Office) : OfficeView :=
  let owner := (mapGet o.ownerId s.users).getD (unknownUser o.ownerId)
  let members := s.getOfficeMembers o.id
  { office := o, owner := owner, members := members, memberCount := members.length }

/- getOfficeById: like enrichOffice but, as in the source, members are looked
   up at the queried id. -/
def MemStorage.getOfficeById (s : MemStorage) (id : Nat) : Option OfficeView :=
  match mapGet id s.offices with
  | none => none
  | some o =>
    let owner := (mapGet o.ownerId s.users).getD (unknownUser o.ownerId)
    let members := s.getOfficeMembers id
    some { office := o, owner := owner, members := members,
           memberCount := members.length }

def MemStorage.getAllOffices (s : MemStorage) : List OfficeView :=
  s.offices.map (fun e => s.enrichOffice e.2)

/- getUserOffice: the first enriched office, in map insertion order, where the
   user is the owner or appears in the (user-resolved) member list. -/
def MemStorage.getUserOffice (s : MemStorage) (userId : String) : Option OfficeView :=
  s.getAllOffices.find? (fun v =>
    v.office.ownerId == userId || v.members.any (fun m => m.member.userId == userId))

/- getAvailableOffices: offices that are public, or where the user appears in
   the (user-resolved) member list. -/
def MemStorage.getAvailableOffices (s : MemStorage) (userId : String) :
    List OfficeView :=
  s.getAllOffices.filter (fun v =>
    !v.office.isPrivate || v.members.any (fun m => m.member.userId == userId))

/- The best-effort permission grant performed inside addOfficeMember: when the
   office view exists and has a voice channel, updateChannelPermissions is
   called with the default arguments (allow = 0, deny = 0, so the request
   carries the default allow mask); otherwise nothing is sent. -/
def grantEvents (ov : Option OfficeView) (userId : String) : List GatewayEvent :=
  match ov with
  | some v =>
    match v.office.voiceChannelId with
    | some vc => [GatewayEvent.setPermission (updateChannelPermissionsReq vc userId 0 0)]
    | none => []
  | none => []

/- The best-effort permission revocation performed inside removeOfficeMember:
   updateChannelPermissions with allow = 0 and deny = 3145728 as written at the
   call site. -/
def revokeEvents (ov : Option OfficeView) (userId : String) : List GatewayEvent :=
  match ov with
  | some v =>
    match v.office.voiceChannelId with
    | some vc => [GatewayEvent.setPermission (updateChannelPermissionsReq vc userId 0 3145728)]
    | none => []
  | none => []

/- addOfficeMember: unconditional map set at key (officeId, userId) (a second
   add for the same key replaces the row), then a best-effort permission grant
   with the default arguments (allow = 0, deny = 0, so the request carries the
   default allow mask). -/
def MemStorage.addOfficeMember (cfg : Config) (gw : Gateway) (s : MemStorage)
    (m : InsertOfficeMember) (now : Nat) :
    MemStorage × List GatewayEvent × OfficeMemberView :=
  let newMember : OfficeMember :=
    { id := 0, officeId := m.officeId, userId := m.userId,
      isOwner := m.isOwner, joinedAt := now }
  let s1 : MemStorage :=
    { s with officeMembers := mapSet (m.officeId, m.userId) newMember s.officeMembers }
  let user := (mapGet m.userId s1.users).getD (unknownUser m.userId)
  (s1, grantEvents (s1.getOfficeById m.officeId) m.userId,
   { member := newMember, user := user })

/- removeOfficeMember: best-effort explicit revocation (allow 0, deny 3145728
   as written at the call site), then the map delete. -/
def MemStorage.removeOfficeMember (cfg : Config) (gw : Gateway) (s : MemStorage)
    (officeId : Nat) (userId : String) : MemStorage × List GatewayEvent :=
  ({ s with officeMembers := mapDelete (officeId, userId) s.officeMembers },
   revokeEvents (s.getOfficeById officeId) userId)

/- createOffice: assign the next id, store the office with a null channel id,
   best-effort create the voice channel (on success store the returned id),
   add the owner membership with isOwner = true, return the enriched office. -/
def MemStorage.createOffice (cfg : Config) (gw : Gateway) (s : MemStorage)
    (office : InsertOffice) (now : Nat) :
    MemStorage × List GatewayEvent × Option OfficeView :=
  let id := s.currentOfficeId
  let newOffice : Office :=
    { id := id, name := office.name, description := office.description,
      isPrivate := office.isPrivate, ownerId := office.ownerId,
      status := "active", createdAt := now, voiceChannelId := none }
  let s0 : MemStorage :=
    { s with offices := mapSet id newOffice s.offices,
             currentOfficeId := s.currentOfficeId + 1 }
  let payload := createVoiceChannelPayload cfg.guildId ("Office-" ++ office.name) cfg.vcCategoryId
  let step1 : MemStorage × List GatewayEvent :=
    match gw.createChannel payload with
    | some channelId =>
      ({ s0 with offices := mapSet id { newOffice with voiceChannelId := some channelId } s0.offices },
       [GatewayEvent.createChannel payload (some channelId)])
    | none => (s0, [GatewayEvent.createChannel payload none])
  let step2 := MemStorage.addOfficeMember cfg gw step1.1
    { officeId := id, userId := office.ownerId, isOwner := true } now
  (step2.1, step1.2 ++ step2.2.1, step2.1.getOfficeById id)

/- deleteOffice: read the office, remove every listed member (each removal
   best-effort revokes the channel permission), best-effort delete the voice
   channel, delete the office record. -/
def MemStorage.deleteOffice (cfg : Config) (gw : Gateway) (s : MemStorage)
    (id : Nat) : MemStorage × List GatewayEvent :=
  let members := s.getOfficeMembers id
  let r := members.foldl (fun acc m =>
      let step := MemStorage.removeOfficeMember cfg gw acc.1 id m.member.userId
      (step.1, acc.2 ++ step.2))
    ((s, []) : MemStorage × List GatewayEvent)
  let events2 : List GatewayEvent :=
    match mapGet id s.offices with
    | some o =>
      match o.voiceChannelId with
      | some vc => [GatewayEvent.deleteChannel vc]
      | none => []
    | none => []
  ({ r.1 with offices := mapDelete id r.1.offices }, r.2 ++ events2)

/-! The relational backend (class DatabaseStorage): rows with serial ids,
    insert appends, delete filters, select filters or finds first. -/

structure Database where
  users : List User
  offices : List Office
  officeMembers : List OfficeMember
  officeSeq : Nat
  memberSeq : Nat
deriving DecidableEq

def Database.init : Database :=
  { users := [], offices := [], officeMembers := [], officeSeq := 1, memberSeq := 1 }

def Database.getUserById (db : Database) (id : String) : Option User :=
  db.users.find? (fun u => u.id == id)

def Database.createUser (db : Database) (u : InsertUser) : Database × User :=
  let newUser : User :=
    { id := u.id, username := u.username, discriminator := u.discriminator,
      avatar := u.avatar, isAdmin := u.isAdmin,
      accessToken := none, refreshToken := none, tokenExpiry := none }
  ({ db with users := db.users ++ [newUser] }, newUser)

def Database.getOfficeMembers (db : Database) (officeId : Nat) :
    List OfficeMemberView :=
  (db.officeMembers.filter (fun m => m.officeId == officeId)).map
    (fun m => { member := m, user := (db.getUserById m.userId).getD (unknownUser m.userId) })

def Database.isOfficeMember (db : Database) (officeId : Nat) (userId : String) :
    Bool :=
  (db.officeMembers.find? (fun m => m.officeId == officeId && m.userId == userId)).isSome

def Database.getOfficeById (db : Database) (id : Nat) : Option OfficeView :=
  match db.offices.find? (fun o => o.id == id) with
  | none => none
  | some o =>
    let members := db.getOfficeMembers id
    some { office := o,
           owner := (db.getUserById o.ownerId).getD (unknownUser o.ownerId),
           members := members, memberCount := members.length }

/- getUserOffice: first the office owned by the user, else the office of the
   user's first membership row, else nothing. -/
def Database.getUserOffice (db : Database) (userId : String) : Option OfficeView :=
  match db.offices.find? (fun o => o.ownerId == userId) with
  | some o => db.getOfficeById o.id
  | none =>
    match db.officeMembers.find? (fun m => m.userId == userId) with
    | some m => db.getOfficeById m.officeId
    | none => none

def Database.enrichOffice (db : Database) (o : Office) : OfficeView :=
  let members := db.getOfficeMembers o.id
  { office := o,
    owner := (db.getUserById o.ownerId).getD (unknownUser o.ownerId),
    members := members, memberCount := members.length }

/- getAvailableOffices: with a user office present the where-clause is
   id distinct from it AND isPrivate = false, otherwise just isPrivate = false;
   private offices are never selected. -/
def Database.getAvailableOffices (db : Database) (userId : String) :
    List OfficeView :=
  let uo := db.getUserOffice userId
  let rows := db.offices.filter (fun o =>
    match uo with
    | some v => decide (o.id ≠ v.office.id) && (o.isPrivate == false)
    | none => o.isPrivate == false)
  rows.map (fun o => db.enrichOffice o)

/- addOfficeMember: a plain insert with the next serial id (no uniqueness
   constraint exists on (officeId, userId) in the schema), then the
   best-effort default-argument permission grant. -/
def Database.addOfficeMember (cfg : Config) (gw : Gateway) (db : Database)
    (m : InsertOfficeMember) (now : Nat) :
    Database × List GatewayEvent × OfficeMemberView :=
  let newMember : OfficeMember :=
    { id := db.memberSeq, officeId := m.officeId, userId := m.userId,
      isOwner := m.isOwner, joinedAt := now }
  let db1 : Database :=
    { db with officeMembers := db.officeMembers ++ [newMember],
              memberSeq := db.memberSeq + 1 }
  let events : List GatewayEvent :=
    match db1.offices.find? (fun o => o.id == m.officeId) with
    | some o =>
      match o.voiceChannelId with
      | some vc => [GatewayEvent.setPermission (updateChannelPermissionsReq vc m.userId 0 0)]
      | none => []
    | none => []
  (db1, events, { member := newMember, user := (db1.getUserById m.userId).getD (unknownUser m.userId) })

def Database.removeOfficeMember (cfg : Config) (gw : Gateway) (db : Database)
    (officeId : Nat) (userId : String) : Database × List GatewayEvent :=
  let events : List GatewayEvent :=
    match db.offices.find? (fun o => o.id == officeId) with
    | some o =>
      match o.voiceChannelId with
      | some vc => [GatewayEvent.setPermission (updateChannelPermissionsReq vc userId 0 3145728)]
      | none => []
    | none => []
  ({ db with officeMembers :=
      db.officeMembers.filter (fun m => !(m.officeId == officeId && m.userId == userId)) },
   events)

/- createOffice: insert the office row; on channel-creation success update its
   voiceChannelId and add the owner membership; on failure add the owner
   membership anyway; in both branches return the enriched office. -/
def Database.createOffice (cfg : Config) (gw : Gateway) (db : Database)
    (office : InsertOffice) (now : Nat) :
    Database × List GatewayEvent × Option OfficeView :=
  let created : Office :=
    { id := db.officeSeq, name := office.name, description := office.description,
      isPrivate := office.isPrivate, ownerId := office.ownerId,
      status := "active", createdAt := now, voiceChannelId := none }
  let db0 : Database :=
    { db with offices := db.offices ++ [created], officeSeq := db.officeSeq + 1 }
  let payload := createVoiceChannelPayload cfg.guildId ("Office-" ++ office.name) cfg.vcCategoryId
  match gw.createChannel payload with
  | some channelId =>
    let db1 : Database :=
      { db0 with offices := db0.offices.map (fun o =>
          if o.id = created.id then { o with voiceChannelId := some channelId } else o) }
    let r := Database.addOfficeMember cfg gw db1
      { officeId := created.id, userId := created.ownerId, isOwner := true } now
    (r.1, GatewayEvent.createChannel payload (some channelId) :: r.2.1,
     r.1.getOfficeById created.id)
  | none =>
    let r := Database.addOfficeMember cfg gw db0
      { officeId := created.id, userId := created.ownerId, isOwner := true } now
    (r.1, GatewayEvent.createChannel payload none :: r.2.1,
     r.1.getOfficeById created.id)

/- deleteOffice: throws NotFound (none) if the office is absent; otherwise
   deletes every membership row of the office, best-effort deletes the voice
   channel, deletes the office row. -/
def Database.deleteOffice (cfg : Config) (gw : Gateway) (db : Database)
    (id : Nat) : Option (Database × List GatewayEvent) :=
  match db.offices.find? (fun o => o.id == id) with
  | none => none
  | some o =>
    let db1 : Database :=
      { db with officeMembers := db.officeMembers.filter (fun m => !(m.officeId == id)) }
    let events : List GatewayEvent :=
      match o.voiceChannelId with
      | some vc => [GatewayEvent.deleteChannel vc]
      | none => []
    some ({ db1 with offices := db1.offices.filter (fun o2 => !(o2.id == id)) }, events)

/-! HTTP route logic (src/server/routes.ts) against the active DatabaseStorage
    backend. -/

/- DELETE /api/offices/:id/members/:userId.  externalAdmin stands for the
   outcome of the guild-role admin check the handler performs when the session
   user is neither a stored admin nor the owner (false if that external call
   throws or the role is absent).  officeIdParam is none when parseInt gave
   NaN; targetUserId is the raw path parameter (the empty string is the falsy
   case of the source's userId guard).  Returns the HTTP status and the store
   state after the request. -/
def removeMemberRoute (cfg : Config) (gw : Gateway) (db : Database)
    (sessionUserId : Option String) (externalAdmin : Bool)
    (officeIdParam : Option Nat) (targetUserId : String) : Nat × Database :=
  match sessionUserId with
  | none => (401, db)
  | some sid =>
    match officeIdParam with
    | none => (400, db)
    | some officeId =>
      match db.getOfficeById officeId with
      | none => (404, db)
      | some office =>
        let isOwner := office.office.ownerId == sid
        match db.getUserById sid with
        | none => (401, db)
        | some user =>
          let isAdmin := if !user.isAdmin && !isOwner then externalAdmin else user.isAdmin
          if !isAdmin && !isOwner then (403, db)
          else if targetUserId == "" then (400, db)
          else if targetUserId == office.office.ownerId then (400, db)
          else if !(db.isOfficeMember officeId targetUserId) then (404, db)
          else
            let r := Database.removeOfficeMember cfg gw db officeId targetUserId
            (204, r.1)

/- POST /api/offices, the storage mutations after validation: createOffice on
   the active backend followed by the route's own second owner addOfficeMember
   on the returned office id. -/
def createOfficeViaRoute (cfg : Config) (gw : Gateway) (db : Database)
    (officeData : InsertOffice) (now : Nat) : Database × Option OfficeView :=
  let r := Database.createOffice cfg gw db officeData now
  match r.2.2 with
  | some v =>
    let r2 := Database.addOfficeMember cfg gw r.1
      { officeId := v.office.id, userId := officeData.ownerId, isOwner := true } now
    (r2.1, some v)
  | none => (r.1, none)

/-! Operation sequences over the in-memory backend, for state-invariant
    claims quantified over any sequence of storage operations. -/

inductive StoreOp where
  | createOffice (o : InsertOffice) (now : Nat)
  | addMember (m : InsertOfficeMember) (now : Nat)
  | removeMember (officeId : Nat) (userId : String)
  | deleteOffice (id : Nat)

def MemStorage.applyOp (cfg : Config) (gw : Gateway) (s : MemStorage) :
    StoreOp → MemStorage
  | StoreOp.createOffice o now => (MemStorage.createOffice cfg gw s o now).1
  | StoreOp.addMember m now => (MemStorage.addOfficeMember cfg gw s m now).1
  | StoreOp.removeMember officeId userId =>
      (MemStorage.removeOfficeMember cfg gw s officeId userId).1
  | StoreOp.deleteOffice id => (MemStorage.deleteOffice cfg gw s id).1

def MemStorage.applyOps (cfg : Config) (gw : Gateway) (s : MemStorage) :
    List StoreOp → MemStorage
  | [] => s
  | op :: t => MemStorage.applyOps cfg gw (MemStorage.applyOp cfg gw s op) t

/- The number of membership rows of the in-memory backend for a given
   (officeId, userId). -/
def MemStorage.memberRowCount (s : MemStorage) (o : Nat) (u : String) : Nat :=
  (s.officeMembers.filter (fun e => e.2.officeId == o && e.2.userId == u)).length

/- The number of membership rows of the relational backend for a given
   (officeId, userId). -/
def Database.memberRowCount (db : Database) (o : Nat) (u : String) : Nat :=
  (db.officeMembers.filter (fun m => m.officeId == o && m.userId == u)).length

/- Well-formedness of the in-memory member map: keys are duplicate-free (a
   JavaScript Map guarantee) and every entry sits at the key built from its own
   officeId and userId (all writes go through the officeId + ":" + userId key).
   Both hold in every state reachable from the empty store. -/
def MemStorage.WfMembers (s : MemStorage) : Prop :=
  keysNodup s.officeMembers ∧
    ∀ e ∈ s.officeMembers, e.1 = (e.2.officeId, e.2.userId)

/-! Association-map lemmas. -/

theorem mapGet_set_self {κ α : Type} [DecidableEq κ] (k : κ) (v : α) :
    ∀ l : List (κ × α), mapGet k (mapSet k v l) = some v := by
  intro l
  induction l with
  | nil => simp [mapSet, mapGet]
  | cons e t ih =>
    by_cases h : e.1 = k
    · simp [mapSet, h, mapGet]
    · simp [mapSet, h, mapGet, ih]

theorem mapHas_set_self {κ α : Type} [DecidableEq κ] (k : κ) (v : α) :
    ∀ l : List (κ × α), mapHas k (mapSet k v l) = true := by
  intro l
  induction l with
  | nil => simp [mapSet, mapHas]
  | cons e t ih =>
    by_cases h : e.1 = k
    · simp [mapSet, h, mapHas]
    · simp [mapSet, h, mapHas, ih]

theorem length_mapSet_of_has {κ α : Type} [DecidableEq κ] (k : κ) (v : α) :
    ∀ l : List (κ × α), mapHas k l = true → (mapSet k v l).length = l.length := by
  intro l
  induction l with
  | nil => intro h; simp [mapHas] at h
  | cons e t ih =>
    intro h
    by_cases he : e.1 = k
    · simp [mapSet, he]
    · simp [mapHas, he] at h
      simp [mapSet, he, ih h]

theorem mem_mapSet {κ α : Type} [DecidableEq κ] {k : κ} {v : α}
    {e : κ × α} : ∀ {l : List (κ × α)}, e ∈ mapSet k v l → e = (k, v) ∨ e ∈ l := by
  intro l
  induction l with
  | nil => intro h; simp [mapSet] at h; left; exact h
  | cons e' t ih =>
    intro h
    by_cases he : e'.1 = k
    · simp [mapSet, he] at h
      rcases h with h | h
      · left; exact h
      · right; exact List.mem_cons_of_mem _ h
    · simp [mapSet, he] at h
      rcases h with h | h
      · right; simp [h]
      · rcases ih h with h' | h'
        · left; exact h'
        · right; exact List.mem_cons_of_mem _ h'

theorem mapDelete_subset {κ α : Type} [DecidableEq κ] {k : κ} {e : κ × α} :
    ∀ {l : List (κ × α)}, e ∈ mapDelete k l → e ∈ l := by
  intro l
  induction l with
  | nil => intro h; simp [mapDelete] at h
  | cons e' t ih =>
    intro h
    by_cases he : e'.1 = k
    · rw [show mapDelete k (e' :: t) = t by simp [mapDelete, he]] at h
      exact List.mem_cons_of_mem _ h
    · rw [show mapDelete k (e' :: t) = e' :: mapDelete k t by simp [mapDelete, he]] at h
      rcases List.mem_cons.mp h with h | h
      · simp [h]
      · exact List.mem_cons_of_mem _ (ih h)

theorem keysNodup_mapSet {κ α : Type} [DecidableEq κ] (k : κ) (v : α) :
    ∀ l : List (κ × α), keysNodup l → keysNodup (mapSet k v l) := by
  intro l
  induction l with
  | nil => intro _; simp [mapSet, keysNodup]
  | cons e t ih =>
    intro h
    rcases List.pairwise_cons.mp h with ⟨h1, h2⟩
    by_cases he : e.1 = k
    · show keysNodup (if e.1 = k then (k, v) :: t else e :: mapSet k v t)
      rw [if_pos he]
      exact List.pairwise_cons.mpr ⟨fun b hb => he ▸ h1 b hb, h2⟩
    · show keysNodup (if e.1 = k then (k, v) :: t else e :: mapSet k v t)
      rw [if_neg he]
      refine List.pairwise_cons.mpr ⟨fun b hb => ?_, ih h2⟩
      rcases mem_mapSet hb with hb' | hb'
      · rw [hb']; exact he
      · exact h1 b hb'

theorem keysNodup_mapDelete {κ α : Type} [DecidableEq κ] (k : κ) :
    ∀ l : List (κ × α), keysNodup l → keysNodup (mapDelete k l) := by
  intro l
  induction l with
  | nil => intro _; simp [mapDelete, keysNodup]
  | cons e t ih =>
    intro h
    rcases List.pairwise_cons.mp h with ⟨h1, h2⟩
    by_cases he : e.1 = k
    · show keysNodup (if e.1 = k then t else e :: mapDelete k t)
      rw [if_pos he]
      exact h2
    · show keysNodup (if e.1 = k then t else e :: mapDelete k t)
      rw [if_neg he]
      exact List.pairwise_cons.mpr
        ⟨fun b hb => h1 b (mapDelete_subset hb), ih h2⟩

theorem mapDelete_no_key {κ α : Type} [DecidableEq κ] {k : κ} {e : κ × α} :
    ∀ {l : List (κ × α)}, keysNodup l → e ∈ mapDelete k l → e.1 ≠ k := by
  intro l
  induction l with
  | nil => intro _ h; simp [mapDelete] at h
  | cons e' t ih =>
    intro hn h
    rcases List.pairwise_cons.mp hn with ⟨h1, h2⟩
    by_cases he : e'.1 = k
    · rw [show mapDelete k (e' :: t) = t by simp [mapDelete, he]] at h
      intro hek
      exact h1 e h (by rw [he, hek])
    · rw [show mapDelete k (e' :: t) = e' :: mapDelete k t by simp [mapDelete, he]] at h
      rcases List.mem_cons.mp h with h | h
      · rw [h]; exact he
      · exact ih h2 h

/-! Sequential key deletion, describing the member-removal loop of
    MemStorage.deleteOffice. -/

def deleteKeys {κ α : Type} [DecidableEq κ] (ks : List κ) (l : List (κ × α)) :
    List (κ × α) :=
  ks.foldl (fun acc k => mapDelete k acc) l

theorem deleteKeys_subset {κ α : Type} [DecidableEq κ] {e : κ × α} :
    ∀ (ks : List κ) (l : List (κ × α)), e ∈ deleteKeys ks l → e ∈ l := by
  intro ks
  induction ks with
  | nil => intro l h; exact h
  | cons k t ih =>
    intro l h
    exact mapDelete_subset (ih (mapDelete k l) h)

theorem deleteKeys_nodup {κ α : Type} [DecidableEq κ] :
    ∀ (ks : List κ) (l : List (κ × α)), keysNodup l → keysNodup (deleteKeys ks l) := by
  intro ks
  induction ks with
  | nil => intro l h; exact h
  | cons k t ih =>
    intro l h
    exact ih (mapDelete k l) (keysNodup_mapDelete k l h)

theorem deleteKeys_not_mem {κ α : Type} [DecidableEq κ] {k : κ} {e : κ × α} :
    ∀ (ks : List κ) (l : List (κ × α)), keysNodup l → k ∈ ks →
      e ∈ deleteKeys ks l → e.1 ≠ k := by
  intro ks
  induction ks with
  | nil => intro l _ hk; simp at hk
  | cons k0 t ih =>
    intro l hn hk he
    rcases List.mem_cons.mp hk with hk | hk
    · subst hk
      exact mapDelete_no_key hn (deleteKeys_subset t (mapDelete k l) he)
    · exact ih (mapDelete k0 l) (keysNodup_mapDelete k0 l hn) hk he

/-! Concrete fixtures used by witnesses and counterexamples. -/

def cfg0 : Config := { guildId := "guild1", vcCategoryId := none }

/- A gateway whose createChannel call throws. -/
def gwNone : Gateway := { createChannel := fun _ => none }

/- A gateway whose createChannel call succeeds with channel id vc1. -/
def gwChan : Gateway := { createChannel := fun _ => some "vc1" }

def insertUserW : InsertUser :=
  { id := "w", username := "wendy", discriminator := "0001", avatar := none, isAdmin := false }

def insertUserU : InsertUser :=
  { id := "u", username := "uri", discriminator := "0002", avatar := none, isAdmin := false }

def insertUserA : InsertUser :=
  { id := "a", username := "amin", discriminator := "0003", avatar := none, isAdmin := true }

def dbBase : Database :=
  (Database.createUser (Database.createUser Database.init insertUserW).1 insertUserU).1

def insertOfficeAlpha : InsertOffice :=
  { name := "Alpha", description := none, isPrivate := true, ownerId := "w" }

def dbRouteCreated : Database := (createOfficeViaRoute cfg0 gwNone dbBase insertOfficeAlpha 0).1

def dbC8 : Database := (Database.addOfficeMember cfg0 gwNone (Database.createOffice cfg0 gwNone dbBase insertOfficeAlpha 0).1 { officeId := 1, userId := "u", isOwner := false } 0).1

def memC9 : MemStorage :=
  let s0 := (MemStorage.createUser MemStorage.init insertUserW).1
  let s1 := (MemStorage.createUser s0 insertUserU).1
  let s2 := (MemStorage.createOffice cfg0 gwNone s1 { name := "Beta", description := none, isPrivate := false, ownerId := "w" } 0).1
  let s3 := (MemStorage.addOfficeMember cfg0 gwNone s2 { officeId := 1, userId := "u", isOwner := false } 0).1
  (MemStorage.createOffice cfg0 gwNone s3 { name := "Alpha", description := none, isPrivate := true, ownerId := "u" } 0).1

def memC3 : MemStorage :=
  let s0 := (MemStorage.createUser MemStorage.init insertUserW).1
  let s1 := (MemStorage.createOffice cfg0 gwNone s0 { name := "Alpha", description := none, isPrivate := true, ownerId := "w" } 0).1
  (MemStorage.addOfficeMember cfg0 gwNone s1 { officeId := 1, userId := "u2", isOwner := false } 0).1

def memC3del : MemStorage := (MemStorage.deleteOffice cfg0 gwNone memC3 1).1

def memC5 : MemStorage :=
  let s0 := (MemStorage.createUser MemStorage.init insertUserW).1
  let s1 := (MemStorage.createOffice cfg0 gwChan s0 { name := "Alpha", description := none, isPrivate := true, ownerId := "w" } 0).1
  (MemStorage.addOfficeMember cfg0 gwChan s1 { officeId := 1, userId := "u2", isOwner := false } 0).1

/-! State-projection lemmas for the in-memory operations. -/

theorem removeOfficeMember_fst (cfg : Config) (gw : Gateway) (s : MemStorage)
    (officeId : Nat) (userId : String) :
    (MemStorage.removeOfficeMember cfg gw s officeId userId).1 =
      { s with officeMembers := mapDelete (officeId, userId) s.officeMembers } := rfl

theorem addOfficeMember_fst (cfg : Config) (gw : Gateway) (s : MemStorage)
    (m : InsertOfficeMember) (now : Nat) :
    (MemStorage.addOfficeMember cfg gw s m now).1 =
      { s with
        officeMembers :=
          mapSet (m.officeId, m.userId)
            ({ id := 0, officeId := m.officeId, userId := m.userId,
               isOwner := m.isOwner, joinedAt := now } : OfficeMember)
            s.officeMembers } := rfl

theorem deleteOffice_loop (cfg : Config) (gw : Gateway) (id : Nat) :
    ∀ (ms : List OfficeMemberView) (s : MemStorage) (evs : List GatewayEvent),
      (ms.foldl (fun acc m =>
        let step := MemStorage.removeOfficeMember cfg gw acc.1 id m.member.userId
        (step.1, acc.2 ++ step.2)) (s, evs)).1 =
      { s with officeMembers :=
          deleteKeys (ms.map (fun m => (id, m.member.userId))) s.officeMembers } := by
  intro ms
  induction ms with
  | nil => intro s evs; rfl
  | cons m t ih =>
    intro s evs
    rw [List.foldl_cons]
    rw [ih]
    rfl

theorem deleteOffice_state (cfg : Config) (gw : Gateway) (s : MemStorage) (id : Nat) :
    (MemStorage.deleteOffice cfg gw s id).1 =
      { s with
        officeMembers :=
          deleteKeys ((s.getOfficeMembers id).map (fun m => (id, m.member.userId)))
            s.officeMembers,
        offices := mapDelete id s.offices } := by
  have h := deleteOffice_loop cfg gw id (s.getOfficeMembers id) s []
  show { ((s.getOfficeMembers id).foldl
      (fun (acc : MemStorage × List GatewayEvent) (m : OfficeMemberView) =>
        let step := MemStorage.removeOfficeMember cfg gw acc.1 id m.member.userId
        (step.1, acc.2 ++ step.2)) (s, [])).1 with
    offices := mapDelete id ((s.getOfficeMembers id).foldl
      (fun (acc : MemStorage × List GatewayEvent) (m : OfficeMemberView) =>
        let step := MemStorage.removeOfficeMember cfg gw acc.1 id m.member.userId
        (step.1, acc.2 ++ step.2)) (s, [])).1.offices } = _
  rw [h]

/- Any row present with a matching office id and an existing user record
   appears, enriched, in getOfficeMembers. -/
theorem mem_getOfficeMembers_of_row (s : MemStorage) (id : Nat)
    (e : (Nat × String) × OfficeMember) (u : User)
    (he : e ∈ s.officeMembers) (hoff : e.2.officeId = id)
    (hu : mapGet e.2.userId s.users = some u) :
    ({ member := e.2, user := u } : OfficeMemberView) ∈ s.getOfficeMembers id := by
  apply List.mem_filterMap.mpr
  refine ⟨e, he, ?_⟩
  simp [hoff, hu]

/- After deleteOffice, any surviving membership row of the deleted office has
   a userId with no User record: rows with a user record were listed by
   getOfficeMembers and removed by the removal loop. -/
theorem deleteOffice_no_user_rows (cfg : Config) (gw : Gateway) (s : MemStorage)
    (id : Nat) (h : MemStorage.WfMembers s) :
    ∀ e ∈ (MemStorage.deleteOffice cfg gw s id).1.officeMembers,
      e.2.officeId = id → mapGet e.2.userId s.users = none := by
  intro e he hoff
  rw [deleteOffice_state] at he
  cases hg : mapGet e.2.userId s.users with
  | none => rfl
  | some u =>
    exfalso
    have hin : e ∈ s.officeMembers := deleteKeys_subset _ _ he
    have hcoh := h.2 e hin
    have hmem := mem_getOfficeMembers_of_row s id e u hin hoff hg
    have hkey : (id, e.2.userId) ∈
        (s.getOfficeMembers id).map (fun m => (id, m.member.userId)) :=
      List.mem_map.mpr ⟨{ member := e.2, user := u }, hmem, rfl⟩
    have hne := deleteKeys_not_mem _ _ h.1 hkey he
    apply hne
    rw [hcoh, hoff]

theorem deleteOffice_getMembers_nil (cfg : Config) (gw : Gateway) (s : MemStorage)
    (id : Nat) (h : MemStorage.WfMembers s) :
    (MemStorage.deleteOffice cfg gw s id).1.getOfficeMembers id = [] := by
  have husers : (MemStorage.deleteOffice cfg gw s id).1.users = s.users := by
    rw [deleteOffice_state]
  rw [MemStorage.getOfficeMembers]
  rw [List.filterMap_eq_nil_iff]
  intro e he
  by_cases hoff : e.2.officeId = id
  · have hnone := deleteOffice_no_user_rows cfg gw s id h e he hoff
    rw [husers] at *
    simp [hoff, hnone]
  · simp [hoff]

/-- C3 (amended): after deleteOffice(id), listing the office's memberships
returns empty and no membership row of the office whose userId has a User
record remains, for every prior well-formed in-memory state and every gateway
behaviour (in particular when the channel-delete or permission-revoke calls
fail, which the code swallows); and in the database backend every membership
row referencing the office is removed.  The original claim fails only for an
in-memory membership row whose userId has no User record, which survives the
deletion (see the counterexample). -/
theorem c3_deleteOffice_amended (cfg : Config) (gw : Gateway) (s : MemStorage)
    (id : Nat) (h : MemStorage.WfMembers s) :
    ((MemStorage.deleteOffice cfg gw s id).1.getOfficeMembers id = [] ∧
      ∀ e ∈ (MemStorage.deleteOffice cfg gw s id).1.officeMembers,
        e.2.officeId = id → mapGet e.2.userId s.users = none) ∧
    (∀ (db : Database) (r : Database × List GatewayEvent),
      Database.deleteOffice cfg gw db id = some r →
      ∀ m ∈ r.1.officeMembers, m.officeId ≠ id) := by
  refine ⟨⟨deleteOffice_getMembers_nil cfg gw s id h,
           deleteOffice_no_user_rows cfg gw s id h⟩, ?_⟩
  intro db r hdel m hm
  rw [Database.deleteOffice] at hdel
  cases hfind : db.offices.find? (fun o => o.id == id) with
  | none => rw [hfind] at hdel; simp at hdel
  | some o =>
    rw [hfind] at hdel
    simp only [Option.some.injEq] at hdel
    rw [← hdel] at hm
    have hmem := List.mem_filter.mp hm
    simpa using hmem.2

/-- Witness for c3_deleteOffice_amended at a concrete store (memC3: one office
with a member row for u2, who has no User record) and a concrete database
(dbC8, holding office 1). -/
theorem c3_deleteOffice_amended_witness :
    (MemStorage.deleteOffice cfg0 gwNone memC3 1).1.getOfficeMembers 1 = [] ∧
    (∀ (r : Database × List GatewayEvent),
      Database.deleteOffice cfg0 gwNone dbC8 1 = some r →
      ∀ m ∈ r.1.officeMembers, m.officeId ≠ 1) := by
  have h := c3_deleteOffice_amended cfg0 gwNone memC3 1 (by constructor <;> decide)
  exact ⟨h.1.1, fun r hr => h.2 dbC8 r hr⟩

/-- C3 counterexample: in the in-memory backend, deleting office 1 of the
store memC3 (whose member row for u2 references no User record) leaves the
membership row (1, u2) in the store — isOfficeMember is still true and the
member map is nonempty — contradicting the claim that no membership row
referencing the office remains for every prior state, including states where
a membership's userId has no corresponding User record. -/
theorem c3_deleteOffice_counterexample :
    MemStorage.isOfficeMember (MemStorage.deleteOffice cfg0 gwNone memC3 1).1 1 "u2" = true ∧
    (MemStorage.deleteOffice cfg0 gwNone memC3 1).1.officeMembers ≠ [] := by
  constructor
  · rfl
  · decide

/-! Preservation of member-map well-formedness by every storage operation. -/

def wfMemberRows (l : List ((Nat × String) × OfficeMember)) : Prop :=
  keysNodup l ∧ ∀ e ∈ l, e.1 = (e.2.officeId, e.2.userId)

theorem wfMemberRows_mapSet (l : List ((Nat × String) × OfficeMember))
    (o : Nat) (u : String) (row : OfficeMember)
    (hrow : row.officeId = o ∧ row.userId = u) (h : wfMemberRows l) :
    wfMemberRows (mapSet (o, u) row l) := by
  refine ⟨keysNodup_mapSet _ _ _ h.1, ?_⟩
  intro e he
  rcases mem_mapSet he with h' | h'
  · rw [h']
    simp [hrow.1, hrow.2]
  · exact h.2 e h'

theorem wfMemberRows_mapDelete (l : List ((Nat × String) × OfficeMember))
    (k : Nat × String) (h : wfMemberRows l) :
    wfMemberRows (mapDelete k l) :=
  ⟨keysNodup_mapDelete _ _ h.1, fun e he => h.2 e (mapDelete_subset he)⟩

theorem wfMemberRows_deleteKeys (ks : List (Nat × String))
    (l : List ((Nat × String) × OfficeMember)) (h : wfMemberRows l) :
    wfMemberRows (deleteKeys ks l) :=
  ⟨deleteKeys_nodup _ _ h.1, fun e he => h.2 e (deleteKeys_subset _ _ he)⟩

theorem createOffice_officeMembers (cfg : Config) (gw : Gateway) (s : MemStorage)
    (o : InsertOffice) (now : Nat) :
    (MemStorage.createOffice cfg gw s o now).1.officeMembers =
      mapSet (s.currentOfficeId, o.ownerId)
        ({ id := 0, officeId := s.currentOfficeId, userId := o.ownerId,
           isOwner := true, joinedAt := now } : OfficeMember)
        s.officeMembers := by
  cases hg : gw.createChannel
      (createVoiceChannelPayload cfg.guildId ("Office-" ++ o.name) cfg.vcCategoryId) with
  | none =>
    simp only [MemStorage.createOffice, hg]
    rfl
  | some channelId =>
    simp only [MemStorage.createOffice, hg]
    rfl

theorem wf_applyOp (cfg : Config) (gw : Gateway) (s : MemStorage) (op : StoreOp)
    (h : MemStorage.WfMembers s) :
    MemStorage.WfMembers (MemStorage.applyOp cfg gw s op) := by
  cases op with
  | createOffice o now =>
    show wfMemberRows (MemStorage.createOffice cfg gw s o now).1.officeMembers
    rw [createOffice_officeMembers]
    exact wfMemberRows_mapSet _ _ _ _ ⟨rfl, rfl⟩ h
  | addMember m now =>
    show wfMemberRows (MemStorage.addOfficeMember cfg gw s m now).1.officeMembers
    rw [addOfficeMember_fst]
    exact wfMemberRows_mapSet _ _ _ _ ⟨rfl, rfl⟩ h
  | removeMember officeId userId =>
    show wfMemberRows (MemStorage.removeOfficeMember cfg gw s officeId userId).1.officeMembers
    rw [removeOfficeMember_fst]
    exact wfMemberRows_mapDelete _ _ h
  | deleteOffice id =>
    show wfMemberRows (MemStorage.deleteOffice cfg gw s id).1.officeMembers
    rw [deleteOffice_state]
    exact wfMemberRows_deleteKeys _ _ h

theorem wf_applyOps (cfg : Config) (gw : Gateway) :
    ∀ (ops : List StoreOp) (s : MemStorage), MemStorage.WfMembers s →
      MemStorage.WfMembers (MemStorage.applyOps cfg gw s ops) := by
  intro ops
  induction ops with
  | nil => intro s h; exact h
  | cons op t ih =>
    intro s h
    exact ih (MemStorage.applyOp cfg gw s op) (wf_applyOp cfg gw s op h)

theorem wf_init : MemStorage.WfMembers MemStorage.init := by
  constructor <;> simp [MemStorage.init, keysNodup]

/- In a well-formed member map there is at most one row per (officeId, userId). -/
theorem memberRowCount_le_one_of_wf (o : Nat) (u : String) :
    ∀ l : List ((Nat × String) × OfficeMember), wfMemberRows l →
      (l.filter (fun e => e.2.officeId == o && e.2.userId == u)).length ≤ 1 := by
  intro l
  induction l with
  | nil => intro _; simp
  | cons e t ih =>
    intro h
    rcases List.pairwise_cons.mp h.1 with ⟨h1, h2⟩
    have hwt : wfMemberRows t :=
      ⟨h2, fun b hb => h.2 b (List.mem_cons_of_mem _ hb)⟩
    by_cases hp : (e.2.officeId == o && e.2.userId == u) = true
    · rw [List.filter_cons, if_pos hp]
      have hek : e.1 = (o, u) := by
        have := h.2 e (List.mem_cons_self _ _)
        simp only [Bool.and_eq_true, beq_iff_eq] at hp
        rw [this, hp.1, hp.2]
      have hnil : t.filter (fun e => e.2.officeId == o && e.2.userId == u) = [] := by
        rw [List.filter_eq_nil_iff]
        intro b hb hpb
        have hbk : b.1 = (o, u) := by
          have := h.2 b (List.mem_cons_of_mem _ hb)
          simp only [Bool.and_eq_true, beq_iff_eq] at hpb
          rw [this, hpb.1, hpb.2]
        exact h1 b hb (by rw [hek, hbk])
      rw [hnil]
      simp
    · rw [List.filter_cons, if_neg hp]
      exact ih hwt

/-- C2 (amended): in the in-memory backend, membership identity is the
composite (officeId, userId) and is unique: after any sequence of
createOffice, addOfficeMember, removeOfficeMember and deleteOffice operations
starting from the empty store, at most one membership row exists for every
(officeId, userId).  The database backend does not enforce this uniqueness —
the schema has no unique constraint on (officeId, userId) and its
addOfficeMember is a plain insert, so repeated adds create duplicate rows
(see the counterexample). -/
theorem c2_membership_uniqueness_amended (cfg : Config) (gw : Gateway)
    (ops : List StoreOp) (o : Nat) (u : String) :
    MemStorage.memberRowCount (MemStorage.applyOps cfg gw MemStorage.init ops) o u ≤ 1 :=
  memberRowCount_le_one_of_wf o u _ (wf_applyOps cfg gw ops MemStorage.init wf_init)

/-- C2 counterexample: on the active database backend the office-create HTTP
path (createOffice followed by the route's second owner addOfficeMember)
produces two membership rows for the same (officeId, userId) = (1, w), so the
claimed at-most-one uniqueness fails on the code. -/
theorem c2_membership_uniqueness_counterexample :
    Database.memberRowCount dbRouteCreated 1 "w" = 2 ∧
    ¬ Database.memberRowCount dbRouteCreated 1 "w" ≤ 1 := by
  constructor
  · rfl
  · decide

/-- C1 (code bug): on the active database backend the HTTP create-office path
(createOffice, which itself inserts the owner membership with isOwner = true,
followed by the route's second addOfficeMember for the owner) leaves two
membership rows with isOwner = true for the created office — both for the
owner, since the schema has no unique constraint on (officeId, userId) and the
insert is unconditional.  This violates the exactly-one-owner-row invariant
the claim states. -/
theorem c1_owner_membership_duplicated :
    (dbRouteCreated.officeMembers.filter (fun m => m.officeId == 1 && m.isOwner)).length = 2 ∧
    ∀ m ∈ dbRouteCreated.officeMembers, m.userId = "w" ∧ m.isOwner = true := by
  constructor
  · rfl
  · decide

/-- C5 (code bug): the revocation request issued by removeOfficeMember for an
office with a voice channel carries allow = 3145728 (CONNECT and SPEAK
granted), not allow = 0 as the claim, the spec and the call-site comment
require: updateChannelPermissions computes finalAllow as allow-or-default,
and the explicitly passed 0 is falsy in JavaScript, so it is replaced by the
default grant mask 3145728. -/
theorem c5_revocation_allow_mask_bug :
    updateChannelPermissionsReq "vc1" "u2" 0 3145728 =
      { channelId := "vc1", userId := "u2", allow := 3145728, deny := 3145728,
        overwriteType := 1 } ∧
    (MemStorage.removeOfficeMember cfg0 gwChan memC5 1 "u2").2 =
      [GatewayEvent.setPermission
        { channelId := "vc1", userId := "u2", allow := 3145728, deny := 3145728,
          overwriteType := 1 }] := by
  constructor <;> rfl

/-- C10: in the in-memory backend, addOfficeMember on an already present
(officeId, userId) does not fail and silently replaces the existing row —
joinedAt is reset to the current clock, isOwner is overwritten with the new
value, the total number of membership rows is unchanged, and isOfficeMember
remains true afterwards. -/
theorem c10_addOfficeMember_upsert (cfg : Config) (gw : Gateway) (s : MemStorage)
    (m : InsertOfficeMember) (now : Nat)
    (h : MemStorage.isOfficeMember s m.officeId m.userId = true) :
    (MemStorage.addOfficeMember cfg gw s m now).1.officeMembers.length =
      s.officeMembers.length ∧
    MemStorage.isOfficeMember (MemStorage.addOfficeMember cfg gw s m now).1
      m.officeId m.userId = true ∧
    mapGet (m.officeId, m.userId)
        (MemStorage.addOfficeMember cfg gw s m now).1.officeMembers =
      some { id := 0, officeId := m.officeId, userId := m.userId,
             isOwner := m.isOwner, joinedAt := now } := by
  refine ⟨?_, ?_, ?_⟩
  · rw [addOfficeMember_fst]
    exact length_mapSet_of_has _ _ _ h
  · show mapHas (m.officeId, m.userId)
      (MemStorage.addOfficeMember cfg gw s m now).1.officeMembers = true
    rw [addOfficeMember_fst]
    exact mapHas_set_self _ _ _
  · rw [addOfficeMember_fst]
    exact mapGet_set_self _ _ _

/-- Witness for c10_addOfficeMember_upsert: re-adding the existing member
(1, u2) of the concrete store memC5 keeps the row count unchanged. -/
theorem c10_addOfficeMember_upsert_witness :
    MemStorage.isOfficeMember memC5 1 "u2" = true ∧
    (MemStorage.addOfficeMember cfg0 gwChan memC5
        { officeId := 1, userId := "u2", isOwner := true } 5).1.officeMembers.length =
      memC5.officeMembers.length :=
  ⟨rfl, (c10_addOfficeMember_upsert cfg0 gwChan memC5
    { officeId := 1, userId := "u2", isOwner := true } 5 rfl).1⟩

/-- C4: a member-removal request whose target userId equals the office's
ownerId is rejected by the route (it never returns 204: the handler returns
400 at the owner guard, or an earlier 401/403 rejection), and the store state
is returned unchanged — no branch before the owner guard performs a mutation,
so the office's membership rows and membership count are untouched.  This
holds for every store state, session, external admin-check outcome and
gateway behaviour. -/
theorem c4_owner_removal_rejected (cfg : Config) (gw : Gateway) (db : Database)
    (sessionUserId : Option String) (externalAdmin : Bool)
    (officeId : Nat) (target : String) (v : OfficeView)
    (hoff : db.getOfficeById officeId = some v)
    (htgt : target = v.office.ownerId) :
    (removeMemberRoute cfg gw db sessionUserId externalAdmin (some officeId) target).2 = db ∧
    (removeMemberRoute cfg gw db sessionUserId externalAdmin (some officeId) target).1 ≠ 204 := by
  unfold removeMemberRoute
  cases sessionUserId with
  | none => exact ⟨rfl, by simp⟩
  | some sid =>
    simp only [hoff]
    cases hu : db.getUserById sid with
    | none => simp [hu]
    | some user =>
      simp only [hu]
      repeat' split
      all_goals
        first
        | exact ⟨rfl, by simp⟩
        | exact absurd
            (show (target == v.office.ownerId) = true from by rw [htgt]; simp)
            (by assumption)

/- The enriched view of office 1 of the concrete database dbC8, used by the
   route-rejection witness. -/
def dbC8view : OfficeView :=
  (Database.getOfficeById dbC8 1).getD
    (Database.enrichOffice dbC8
      { id := 0, name := "", description := none, isPrivate := false,
        ownerId := "", status := "", createdAt := 0, voiceChannelId := none })

/-- Witness for c4_owner_removal_rejected: on the concrete database dbC8
(office 1 owned by w, with member u), the owner w requesting removal of
target w is rejected with the state unchanged. -/
theorem c4_owner_removal_rejected_witness :
    (removeMemberRoute cfg0 gwNone dbC8 (some "w") false (some 1) "w").2 = dbC8 ∧
    (removeMemberRoute cfg0 gwNone dbC8 (some "w") false (some 1) "w").1 ≠ 204 :=
  c4_owner_removal_rejected cfg0 gwNone dbC8 (some "w") false 1 "w" dbC8view
    (by rfl) (by rfl)

/- The grant helper never issues a channel-creation request. -/
theorem grantEvents_no_createChannel (ov : Option OfficeView) (u : String)
    (p : ChannelCreatePayload) (r : Option String) :
    GatewayEvent.createChannel p r ∉ grantEvents ov u := by
  intro h
  cases ov with
  | none => simp [grantEvents] at h
  | some v =>
    cases hvc : v.office.voiceChannelId with
    | none => simp [grantEvents, hvc] at h
    | some vc => simp [grantEvents, hvc] at h

/-- C6: every voice-channel creation request carries exactly one permission
overwrite, denying CONNECT and SPEAK (deny mask 3145728) to the role whose id
is the guild id (the @everyone-equivalent role), with no allowed bits, and the
request creates a voice channel (type 2); moreover every channel-creation
request that createOffice emits to the gateway is of exactly this shape. -/
theorem c6_everyone_denied_at_creation :
    (∀ (guildId name : String) (categoryId : Option String),
      (createVoiceChannelPayload guildId name categoryId).permission_overwrites =
        [{ id := guildId, overwriteType := 0, allow := "0", deny := "3145728" }] ∧
      (createVoiceChannelPayload guildId name categoryId).channelType = 2) ∧
    (∀ (cfg : Config) (gw : Gateway) (s : MemStorage) (o : InsertOffice) (now : Nat)
        (p : ChannelCreatePayload) (res : Option String),
      GatewayEvent.createChannel p res ∈ (MemStorage.createOffice cfg gw s o now).2.1 →
      p.permission_overwrites =
        [{ id := cfg.guildId, overwriteType := 0, allow := "0", deny := "3145728" }]) := by
  refine ⟨fun guildId name categoryId => ⟨rfl, rfl⟩, ?_⟩
  intro cfg gw s o now p res hmem
  cases hg : gw.createChannel
      (createVoiceChannelPayload cfg.guildId ("Office-" ++ o.name) cfg.vcCategoryId) with
  | none =>
    simp only [MemStorage.createOffice, hg] at hmem
    rcases List.mem_append.mp hmem with h | h
    · have h' := List.mem_singleton.mp h
      injection h' with h1 h2
      rw [h1]
      rfl
    · exact absurd h (grantEvents_no_createChannel _ _ _ _)
  | some channelId =>
    simp only [MemStorage.createOffice, hg] at hmem
    rcases List.mem_append.mp hmem with h | h
    · have h' := List.mem_singleton.mp h
      injection h' with h1 h2
      rw [h1]
      rfl
    · exact absurd h (grantEvents_no_createChannel _ _ _ _)

/-- Witness for c6_everyone_denied_at_creation: the channel-creation request
emitted by a concrete createOffice run carries the deny-3145728 overwrite for
the guild role. -/
theorem c6_everyone_denied_at_creation_witness :
    (createVoiceChannelPayload "guild1" "Office-Alpha" none).permission_overwrites =
      [{ id := "guild1", overwriteType := 0, allow := "0", deny := "3145728" }] :=
  c6_everyone_denied_at_creation.2 cfg0 gwNone MemStorage.init
    { name := "Alpha", description := none, isPrivate := true, ownerId := "w" } 0
    (createVoiceChannelPayload "guild1" "Office-Alpha" none) none (by decide)

theorem db_addOfficeMember_fst (cfg : Config) (gw : Gateway) (db : Database)
    (m : InsertOfficeMember) (now : Nat) :
    (Database.addOfficeMember cfg gw db m now).1 =
      { db with
        officeMembers := db.officeMembers ++
          [{ id := db.memberSeq, officeId := m.officeId, userId := m.userId,
             isOwner := m.isOwner, joinedAt := now }],
        memberSeq := db.memberSeq + 1 } := rfl

theorem find?_append_of_none {α : Type} {p : α → Bool} :
    ∀ (l1 l2 : List α), l1.find? p = none → (l1 ++ l2).find? p = l2.find? p := by
  intro l1
  induction l1 with
  | nil => intro l2 _; rfl
  | cons a t ih =>
    intro l2 h
    rw [List.find?_cons] at h
    cases hp : p a with
    | true => rw [hp] at h; simp at h
    | false =>
      rw [hp] at h
      rw [List.cons_append, List.find?_cons, hp]
      exact ih l2 h

/-- C7: when the gateway's createChannel call fails (throws), createOffice
still succeeds on both backends: it returns an enriched view whose
voiceChannelId is null, the office record is persisted with a null
voiceChannelId, and the owner's membership row is persisted.  For the
database backend the office ids already present are assumed distinct from the
next serial id, which the serial allocation guarantees. -/
theorem c7_createOffice_survives_gateway_failure (cfg : Config) (gw : Gateway)
    (s : MemStorage) (db : Database) (o : InsertOffice) (now : Nat)
    (hfail : gw.createChannel
      (createVoiceChannelPayload cfg.guildId ("Office-" ++ o.name) cfg.vcCategoryId) = none) :
    ((∃ v, (MemStorage.createOffice cfg gw s o now).2.2 = some v ∧
        v.office.voiceChannelId = none ∧ v.office.ownerId = o.ownerId) ∧
      mapGet s.currentOfficeId (MemStorage.createOffice cfg gw s o now).1.offices =
        some { id := s.currentOfficeId, name := o.name, description := o.description,
               isPrivate := o.isPrivate, ownerId := o.ownerId, status := "active",
               createdAt := now, voiceChannelId := none } ∧
      MemStorage.isOfficeMember (MemStorage.createOffice cfg gw s o now).1
        s.currentOfficeId o.ownerId = true) ∧
    ((∀ o2 ∈ db.offices, o2.id ≠ db.officeSeq) →
      (∃ v, (Database.createOffice cfg gw db o now).2.2 = some v ∧
        v.office.voiceChannelId = none ∧ v.office.ownerId = o.ownerId) ∧
      ({ id := db.officeSeq, name := o.name, description := o.description,
         isPrivate := o.isPrivate, ownerId := o.ownerId, status := "active",
         createdAt := now, voiceChannelId := none } : Office) ∈
        (Database.createOffice cfg gw db o now).1.offices ∧
      Database.isOfficeMember (Database.createOffice cfg gw db o now).1
        db.officeSeq o.ownerId = true) := by
  constructor
  · refine ⟨?_, ?_, ?_⟩
    · simp only [MemStorage.createOffice, hfail, addOfficeMember_fst,
        MemStorage.getOfficeById, mapGet_set_self]
      exact ⟨_, rfl, rfl, rfl⟩
    · simp only [MemStorage.createOffice, hfail, addOfficeMember_fst]
      exact mapGet_set_self _ _ _
    · simp only [MemStorage.createOffice, hfail]
      show mapHas (s.currentOfficeId, o.ownerId) _ = true
      rw [addOfficeMember_fst]
      exact mapHas_set_self _ _ _
  · intro hfresh
    have hfind : db.offices.find? (fun o2 => o2.id == db.officeSeq) = none := by
      rw [List.find?_eq_none]
      intro o2 h2
      simp only [beq_iff_eq]
      exact hfresh o2 h2
    refine ⟨?_, ?_, ?_⟩
    · simp only [Database.createOffice, hfail, db_addOfficeMember_fst,
        Database.getOfficeById]
      rw [find?_append_of_none _ _ hfind]
      rw [List.find?_cons]
      simp only [beq_self_eq_true, cond_true]
      exact ⟨_, rfl, rfl, rfl⟩
    · simp only [Database.createOffice, hfail, db_addOfficeMember_fst]
      exact List.mem_append_right _ (List.mem_singleton.mpr rfl)
    · simp only [Database.createOffice, hfail, Database.isOfficeMember,
        db_addOfficeMember_fst]
      have hmem :
          ({ id := db.memberSeq, officeId := db.officeSeq, userId := o.ownerId,
             isOwner := true, joinedAt := now } : OfficeMember) ∈
            db.officeMembers ++
              [({ id := db.memberSeq, officeId := db.officeSeq, userId := o.ownerId,
                  isOwner := true, joinedAt := now } : OfficeMember)] :=
        List.mem_append_right _ (List.mem_singleton.mpr rfl)
      apply List.find?_isSome.mpr
      exact ⟨_, hmem, by simp⟩

/-- Witness for c7_createOffice_survives_gateway_failure: with the failing
gateway gwNone, a concrete createOffice run persists the owner membership on
both backends. -/
theorem c7_createOffice_survives_gateway_failure_witness :
    MemStorage.isOfficeMember
      (MemStorage.createOffice cfg0 gwNone MemStorage.init insertOfficeAlpha 0).1
      1 "w" = true ∧
    Database.isOfficeMember
      (Database.createOffice cfg0 gwNone dbBase insertOfficeAlpha 0).1 1 "w" = true := by
  have h := c7_createOffice_survives_gateway_failure cfg0 gwNone MemStorage.init
    dbBase insertOfficeAlpha 0 rfl
  exact ⟨h.1.2.2, (h.2 (by decide)).2.2⟩

/-- C8 (amended): listAvailableOffices never includes a private office in
which the user has no (user-resolved) membership; precisely, the in-memory
backend returns exactly the offices that are public or hold a membership row
for the user whose user record exists, while the active database backend
returns exactly the public offices other than the user's own office — in
particular a private office in which the user is a member is never included
by the database backend, which is where the original claim fails (see the
counterexample). -/
theorem c8_availableOffices_amended (u : String) :
    (∀ (s : MemStorage) (o : Office), o ∈ s.offices.map Prod.snd →
      ((∃ v ∈ s.getAvailableOffices u, v.office = o) ↔
        (o.isPrivate = false ∨
          ∃ e ∈ s.officeMembers, e.2.officeId = o.id ∧ e.2.userId = u ∧
            (mapGet e.2.userId s.users).isSome))) ∧
    (∀ db : Database,
      (∀ v ∈ db.getAvailableOffices u, v.office.isPrivate = false) ∧
      (∀ o2 ∈ db.offices, o2.isPrivate = false →
        (∀ uo, db.getUserOffice u = some uo → o2.id ≠ uo.office.id) →
        ∃ v ∈ db.getAvailableOffices u, v.office = o2)) := by
  constructor
  · intro s o ho
    constructor
    · rintro ⟨v, hv, hvo⟩
      have hv' := List.mem_filter.mp hv
      rcases List.mem_map.mp hv'.1 with ⟨p, hp, hpe⟩
      have hpo : p.2 = o := by
        rw [← hvo, ← hpe]
        rfl
      have hmembers : v.members = s.getOfficeMembers o.id := by
        rw [← hpe]
        show s.getOfficeMembers p.2.id = s.getOfficeMembers o.id
        rw [hpo]
      rcases (Bool.or_eq_true _ _).mp hv'.2 with hpub | hany
      · left
        rw [← hvo]
        simpa using hpub
      · right
        rcases List.any_eq_true.mp hany with ⟨mv, hmv, hmu⟩
        rw [hmembers] at hmv
        rcases List.mem_filterMap.mp hmv with ⟨e, he, hfe⟩
        by_cases hoff : e.2.officeId = o.id
        · refine ⟨e, he, hoff, ?_, ?_⟩
          · cases hg : mapGet e.2.userId s.users with
            | none => rw [hoff, hg] at hfe; simp at hfe
            | some usr =>
              rw [hoff, hg] at hfe
              simp only [if_true, Option.some.injEq] at hfe
              have hme : mv.member = e.2 := by rw [← hfe]
              rw [← hme]
              exact (beq_iff_eq).mp hmu
          · cases hg : mapGet e.2.userId s.users with
            | none => rw [hoff, hg] at hfe; simp at hfe
            | some usr => simp [hg]
        · rw [if_neg hoff] at hfe
          simp at hfe
    · intro hcond
      rcases List.mem_map.mp ho with ⟨p, hp, hpo⟩
      refine ⟨s.enrichOffice o, ?_, rfl⟩
      apply List.mem_filter.mpr
      constructor
      · apply List.mem_map.mpr
        exact ⟨p, hp, by rw [hpo]⟩
      · apply (Bool.or_eq_true _ _).mpr
        rcases hcond with hpub | ⟨e, he, hoff, huid, husr⟩
        · left
          show (!(s.enrichOffice o).office.isPrivate) = true
          have : (s.enrichOffice o).office.isPrivate = o.isPrivate := rfl
          rw [this, hpub]
          rfl
        · right
          rcases Option.isSome_iff_exists.mp husr with ⟨usr, husr'⟩
          apply List.any_eq_true.mpr
          refine ⟨{ member := e.2, user := usr }, ?_, by simp [huid]⟩
          show _ ∈ s.getOfficeMembers o.id
          exact mem_getOfficeMembers_of_row s o.id e usr he hoff husr'
  · intro db
    constructor
    · intro v hv
      rcases List.mem_map.mp hv with ⟨row, hrow, hre⟩
      have hr := List.mem_filter.mp hrow
      have hpriv : row.isPrivate = false := by
        cases huo : db.getUserOffice u with
        | none =>
          rw [huo] at hr
          simpa using hr.2
        | some uo =>
          rw [huo] at hr
          have h2 := hr.2
          simp only [Bool.and_eq_true, beq_iff_eq] at h2
          exact h2.2
      rw [← hre]
      exact hpriv
    · intro o2 h2 hpub hne
      refine ⟨db.enrichOffice o2, ?_, rfl⟩
      apply List.mem_map.mpr
      refine ⟨o2, ?_, rfl⟩
      apply List.mem_filter.mpr
      refine ⟨h2, ?_⟩
      cases huo : db.getUserOffice u with
      | none => simp [hpub]
      | some uo =>
        simp only [Bool.and_eq_true, beq_iff_eq, decide_eq_true_eq]
        exact ⟨hne uo huo, hpub⟩

def officeBeta : Office :=
  { id := 1, name := "Beta", description := none, isPrivate := false,
    ownerId := "w", status := "active", createdAt := 0, voiceChannelId := none }

def officePub : Office :=
  { id := 1, name := "Pub", description := none, isPrivate := false,
    ownerId := "w", status := "active", createdAt := 0, voiceChannelId := none }

def dbPub : Database :=
  (Database.createOffice cfg0 gwNone dbBase
    { name := "Pub", description := none, isPrivate := false, ownerId := "w" } 0).1

/-- Witness for c8_availableOffices_amended: the public office Beta of the
concrete in-memory store memC9 is listed for u, and the public office Pub of
the concrete database dbPub is listed for the unrelated user u3. -/
theorem c8_availableOffices_amended_witness :
    (∃ v ∈ memC9.getAvailableOffices "u", v.office = officeBeta) ∧
    (∃ v ∈ dbPub.getAvailableOffices "u3", v.office = officePub) := by
  constructor
  · exact ((c8_availableOffices_amended "u").1 memC9 officeBeta (by decide)).mpr
      (Or.inl (by decide))
  · refine ((c8_availableOffices_amended "u3").2 dbPub).2 officePub (by decide)
      (by decide) ?_
    intro uo huo
    rw [show Database.getUserOffice dbPub "u3" = none from rfl] at huo
    cases huo

/-- C8 counterexample: on the active database backend, the user u holds a
membership in the private office 1 of the concrete database dbC8, yet
getAvailableOffices u returns the empty list — the claim that every private
office in which u is a member is included fails on the code. -/
theorem c8_availableOffices_counterexample :
    dbC8.isOfficeMember 1 "u" = true ∧
    dbC8.offices.map (fun o => (o.id, o.isPrivate)) = [(1, true)] ∧
    dbC8.getAvailableOffices "u" = [] := ⟨rfl, rfl, rfl⟩

/- With duplicate-free office ids, find-by-id returns the given member. -/
theorem find?_id_of_nodup :
    ∀ (l : List Office), (l.map (fun o => o.id)).Nodup →
      ∀ o ∈ l, l.find? (fun o2 => o2.id == o.id) = some o := by
  intro l
  induction l with
  | nil => intro _ o ho; simp at ho
  | cons b t ih =>
    intro hn o ho
    rw [List.map_cons] at hn
    rcases List.nodup_cons.mp hn with ⟨hb, ht⟩
    rcases List.mem_cons.mp ho with rfl | ho'
    · rw [List.find?_cons]
      simp
    · rw [List.find?_cons]
      cases hpb : (b.id == o.id) with
      | true =>
        exfalso
        apply hb
        rw [beq_iff_eq] at hpb
        rw [hpb]
        exact List.mem_map_of_mem _ ho'
      | false =>
        simp only [cond_false]
        exact ih ht o ho'

/-- C9 (amended): on the active database backend, getUserOffice(u) returns an
office owned by u whenever one exists (in particular, when u both owns an
office and is a member of a different office, the owned office is returned);
otherwise, the office of u's first membership row when one exists; otherwise
nothing.  Office ids are assumed duplicate-free and membership office
references assumed resolvable, both guaranteed by the serial primary key and
the foreign-key constraint.  The in-memory backend deviates: it returns the
first office in map insertion order in which u is owner or member, which can
be the membership office rather than the owned one (see the
counterexample). -/
theorem c9_getUserOffice_amended (db : Database) (u : String)
    (hids : (db.offices.map (fun o => o.id)).Nodup)
    (hfk : ∀ m ∈ db.officeMembers, ∃ o ∈ db.offices, o.id = m.officeId) :
    (∀ o ∈ db.offices, o.ownerId = u →
      ∃ v, db.getUserOffice u = some v ∧ v.office.ownerId = u) ∧
    ((∀ o ∈ db.offices, o.ownerId ≠ u) →
      ∀ m, db.officeMembers.find? (fun m2 => m2.userId == u) = some m →
        ∃ v, db.getUserOffice u = some v ∧ v.office.id = m.officeId) ∧
    ((∀ o ∈ db.offices, o.ownerId ≠ u) →
      (∀ m ∈ db.officeMembers, m.userId ≠ u) →
      db.getUserOffice u = none) := by
  refine ⟨?_, ?_, ?_⟩
  · intro o ho hown
    cases hf : db.offices.find? (fun o2 => o2.ownerId == u) with
    | none =>
      exfalso
      have := List.find?_eq_none.mp hf o ho
      simp only [beq_iff_eq] at this
      exact this hown
    | some o' =>
      have hpo' : o'.ownerId = u := by
        have h2 := List.find?_some hf
        rwa [beq_iff_eq] at h2
      have ho'mem : o' ∈ db.offices := List.mem_of_find?_eq_some hf
      have hfind := find?_id_of_nodup db.offices hids o' ho'mem
      simp only [Database.getUserOffice, hf, Database.getOfficeById, hfind]
      exact ⟨_, rfl, hpo'⟩
  · intro hnone m hm
    have hf : db.offices.find? (fun o2 => o2.ownerId == u) = none := by
      rw [List.find?_eq_none]
      intro o2 h2
      simp only [beq_iff_eq]
      exact hnone o2 h2
    have hmmem : m ∈ db.officeMembers := List.mem_of_find?_eq_some hm
    rcases hfk m hmmem with ⟨o, ho, hoid⟩
    have hfind := find?_id_of_nodup db.offices hids o ho
    rw [hoid] at hfind
    simp only [Database.getUserOffice, hf, hm, Database.getOfficeById, hfind]
    exact ⟨_, rfl, hoid⟩
  · intro hnone hnomem
    have hf : db.offices.find? (fun o2 => o2.ownerId == u) = none := by
      rw [List.find?_eq_none]
      intro o2 h2
      simp only [beq_iff_eq]
      exact hnone o2 h2
    have hfm : db.officeMembers.find? (fun m2 => m2.userId == u) = none := by
      rw [List.find?_eq_none]
      intro m2 h2
      simp only [beq_iff_eq]
      exact hnomem m2 h2
    simp only [Database.getUserOffice, hf, hfm]

def dbC9 : Database :=
  let d1 := (Database.createOffice cfg0 gwNone dbBase
    { name := "Beta", description := none, isPrivate := false, ownerId := "w" } 0).1
  let d2 := (Database.addOfficeMember cfg0 gwNone d1
    { officeId := 1, userId := "u", isOwner := false } 0).1
  (Database.createOffice cfg0 gwNone d2
    { name := "Alpha", description := none, isPrivate := true, ownerId := "u" } 0).1

def officeAlpha2 : Office :=
  { id := 2, name := "Alpha", description := none, isPrivate := true,
    ownerId := "u", status := "active", createdAt := 0, voiceChannelId := none }

/-- Witness for c9_getUserOffice_amended: in the concrete database dbC9, u is
a member of office 1 but owns office 2, and getUserOffice u returns the owned
office. -/
theorem c9_getUserOffice_amended_witness :
    ∃ v, dbC9.getUserOffice "u" = some v ∧ v.office.ownerId = "u" :=
  (c9_getUserOffice_amended dbC9 "u" (by decide) (by decide)).1
    officeAlpha2 (by decide) rfl

/-- C9 counterexample: in the in-memory backend store memC9, u owns office 2
and is a member of office 1 (owned by w, created earlier), and getUserOffice u
returns office 1, not the owned office — refuting the claim that the owned
office is returned when u both owns an office and is a member of a different
one. -/
theorem c9_getUserOffice_counterexample :
    (memC9.getUserOffice "u").map (fun v => v.office.id) = some 1 ∧
    (mapGet 1 memC9.offices).map (fun o => o.ownerId) = some "w" ∧
    (mapGet 2 memC9.offices).map (fun o => o.ownerId) = some "u" := ⟨rfl, rfl, rfl⟩
